import Mathlib

/-!
Verification of the tabular-to-MCAP conversion pipeline (`tabular2mcap`).

The Python sources are shallowly embedded: Python strings become `List Char`
(so every operation reduces in the kernel), Python dicts become
insertion-ordered association lists, machine integers are `Int`/`Nat`
(the code never relies on overflow), and fallible code returns
`Except`/`Option`.  Each definition names the source function it embeds.
-/

set_option autoImplicit false

namespace Tabular2Mcap

/-- A Python string, modelled as its list of characters. -/
abbrev Str : Type := List Char

/-- Python dict lookup `d[k]` / `k in d` on an insertion-ordered association
list (the dicts built by this code have unique keys). -/
def dictGet {α : Type} (d : List (Str × α)) (k : Str) : Option α :=
  match d with
  | [] => none
  | (k2, v) :: rest => if k2 = k then some v else dictGet rest k

/-- Python dict assignment `d[k] = v`: replaces the value in place when the
key is present, otherwise appends the pair (insertion order preserved). -/
def dictSet {α : Type} (d : List (Str × α)) (k : Str) (v : α) : List (Str × α) :=
  match d with
  | [] => [(k, v)]
  | (k2, v2) :: rest =>
      if k2 = k then (k2, v) :: rest else (k2, v2) :: dictSet rest k v

/-- The Python values flowing through the conversion pipeline: `None`,
booleans, integers, float NaN (the one float value the pipeline treats
specially), strings, pandas timestamps (kept as their ISO-8601 text),
raw bytes, lists, and dicts.  Finite floats behave exactly like integers in
every operation the claims touch, so they are not modelled separately. -/
inductive Val where
  | vnone
  | vbool (b : Bool)
  | vint (n : Int)
  | vnan
  | vstr (s : Str)
  | vdatetime (iso : Str)
  | vbytes (bs : List Nat)
  | vlist (l : List Val)
  | vdict (d : List (Str × Val))

/-- A converted message: the Python dict produced for one row. -/
abbrev Msg : Type := List (Str × Val)

/-- The RFC 4648 base64 alphabet used by `base64.b64encode`. -/
def b64Alphabet : Str :=
  "ABCDEFGHIJKLMNOPQRSTUVWXYZabcdefghijklmnopqrstuvwxyz0123456789+/".toList

/-- One output character of base64 (6-bit group). -/
def b64Char (n : Nat) : Char := b64Alphabet.getD n '='

/-- Embeds `base64.b64encode` on a list of bytes (taken mod 256). -/
def b64Encode : List Nat → Str
  | [] => []
  | [a] =>
      [b64Char (a % 256 / 4), b64Char (a % 256 % 4 * 16), '=', '=']
  | [a, b] =>
      [b64Char (a % 256 / 4), b64Char (a % 256 % 4 * 16 + b % 256 / 16),
       b64Char (b % 256 % 16 * 4), '=']
  | a :: b :: c :: rest =>
      b64Char (a % 256 / 4) :: b64Char (a % 256 % 4 * 16 + b % 256 / 16) ::
      b64Char (b % 256 % 16 * 4 + c % 256 / 64) :: b64Char (c % 256 % 64) ::
      b64Encode rest

/-- Whitespace as Python `str.strip()` removes it (the ASCII cases; the extra
Unicode space classes Python also strips never occur in the claims). -/
def isPyWhitespace (c : Char) : Bool := c.isWhitespace

/-- Embeds Python `str.strip()`: drops whitespace from both ends. -/
def pyStrip (s : Str) : Str :=
  ((s.dropWhile isPyWhitespace).reverse.dropWhile isPyWhitespace).reverse

/-- Worker for `pySplit`; `acc` holds the current chunk reversed, `fuel`
bounds the recursion (callers pass the input length plus one, which is
enough to consume the whole input for a non-empty separator). -/
def pySplitAux (sep : Str) : Nat → Str → Str → List Str
  | 0, s, acc => [acc.reverse ++ s]
  | _ + 1, [], acc => [acc.reverse]
  | fuel + 1, c :: rest, acc =>
      if sep.isPrefixOf (c :: rest) then
        acc.reverse :: pySplitAux sep fuel (List.drop sep.length (c :: rest)) []
      else
        pySplitAux sep fuel rest (c :: acc)

/-- Embeds Python `str.split(sep)` for a non-empty separator `sep` (Python
raises `ValueError` on an empty separator; the configuration field is a
required non-empty string). -/
def pySplit (sep s : Str) : List Str :=
  pySplitAux sep (s.length + 1) s []

/-- Splits on a single character; used for path components. -/
def splitOnChar (sep : Char) : Str → List Str
  | [] => [[]]
  | c :: rest =>
      let r := splitOnChar sep rest
      if c = sep then [] :: r
      else
        match r with
        | [] => [[c]]
        | hd :: tl => (c :: hd) :: tl

/-- Embeds `pathlib.Path(p).name`: the final component of a relative path. -/
def baseName (p : Str) : Str := (splitOnChar '/' p).getLastD []

/-- The fragment of Python `re` patterns the configuration files use:
the empty language, the empty string, literal characters, the `.`
wildcard, concatenation, alternation, and Kleene star. -/
inductive Reg where
  | emp
  | eps
  | lit (c : Char)
  | anyc
  | cat (r1 r2 : Reg)
  | alt (r1 r2 : Reg)
  | star (r : Reg)

/-- Whether the regex accepts the empty string. -/
def Reg.nullable : Reg → Bool
  | .emp => false
  | .eps => true
  | .lit _ => false
  | .anyc => false
  | .cat r1 r2 => r1.nullable && r2.nullable
  | .alt r1 r2 => r1.nullable || r2.nullable
  | .star _ => true

/-- Brzozowski derivative of the regex by one character. -/
def Reg.deriv : Reg → Char → Reg
  | .emp, _ => .emp
  | .eps, _ => .emp
  | .lit c, d => if c = d then .eps else .emp
  | .anyc, _ => .eps
  | .cat r1 r2, d =>
      if r1.nullable then .alt (.cat (r1.deriv d) r2) (r2.deriv d)
      else .cat (r1.deriv d) r2
  | .alt r1 r2, d => .alt (r1.deriv d) (r2.deriv d)
  | .star r, d => .cat (r.deriv d) (.star r)

/-- Whole-string regex acceptance. -/
def Reg.accepts (r : Reg) (s : Str) : Bool :=
  (s.foldl Reg.deriv r).nullable

/-- Embeds Python `re.match(r, s) is not None`: the match is anchored at the
start of `s` only, so it succeeds exactly when some (possibly empty,
possibly proper) initial segment of `s` is in the language of `r`. -/
def reMatch (r : Reg) (s : Str) : Bool :=
  s.inits.any r.accepts

/-- The regex matching exactly one literal string. -/
def Reg.ofLits (s : Str) : Reg :=
  s.foldr (fun c r => .cat (.lit c) r) .eps

/-- One file-matching rule (`FileMatchingConfig` in loader/models.py, the
shared base of all four mapping kinds).  `input_path.glob(file_pattern)` is
an external primitive (spec section 1 leaves directory traversal out of
scope), so the glob is modelled by the Boolean predicate `globMatch` on
root-relative paths: `inputFiles.filter globMatch` stands for the list the
glob call yields, in traversal order. -/
structure FileMapping where
  globMatch : Str → Bool
  excludeFilePattern : Option Reg

/-- The skip test of `McapConverter._process_file_mappings`: the exclude
pattern is tested with `re.match` against `relative_path.name` — the
basename of the file, not its root-relative path. -/
def excludeSkips (m : FileMapping) (f : Str) : Bool :=
  match m.excludeFilePattern with
  | some r => reMatch r (baseName f)
  | none => false

/-- Embeds `McapConverter._process_file_mappings`: for every mapping in
order, every glob-matched file not skipped by the exclude test is paired
with its mapping.  The resulting tuples drive all downstream processing
(`_process_tabular_mappings`, `_process_other_mappings`,
`_process_attachments`, `_process_metadata`), so a skipped file produces no
channel, message, attachment, or metadata entry. -/
def processFileMappings (mappings : List FileMapping) (inputFiles : List Str) :
    List (FileMapping × Str) :=
  mappings.flatMap (fun mapping =>
    ((inputFiles.filter mapping.globMatch).filter
        (fun f => ! excludeSkips mapping f)).map (fun f => (mapping, f)))

/-- The dict key "timestamp". -/
def tsKey : Str := "timestamp".toList

/-- The dict key "sec". -/
def secKey : Str := "sec".toList

/-- The dict key "nsec". -/
def nsecKey : Str := "nsec".toList

/-- The dict key "header". -/
def headerKey : Str := "header".toList

/-- The dict key "stamp". -/
def stampKey : Str := "stamp".toList

/-- The dict key "nanosec". -/
def nanosecKey : Str := "nanosec".toList

/-- The dict key "data". -/
def dataKey : Str := "data".toList

/-- A pandas/numpy column dtype, as far as the two schema-inference paths
inspect it: the numpy kind with the bit width where the width matters,
plus pandas' datetime and categorical classifications. -/
inductive ColKind where
  | kBool
  | kInt (bits : Nat)
  | kUInt (bits : Nat)
  | kFloat (bits : Nat)
  | kDatetime
  | kCategorical
  | kObject
  deriving DecidableEq

/-- A property of a generated JSON schema: the scalar type tags the
inference emits, or the nested time object holding an integer `sec` with
the given minimum and an integer `nsec` within the given minimum and
maximum. -/
inductive JsonProp where
  | jint
  | jnum
  | jbool
  | jstr
  | jtime (secMinimum nsecMinimum nsecMaximum : Int)
  deriving DecidableEq

/-- Embeds `pd.api.types.is_integer_dtype`. -/
def isIntegerDtype : ColKind → Bool
  | .kInt _ => true
  | .kUInt _ => true
  | _ => false

/-- Embeds `pd.api.types.is_float_dtype`. -/
def isFloatDtype : ColKind → Bool
  | .kFloat _ => true
  | _ => false

/-- Embeds `pd.api.types.is_bool_dtype`. -/
def isBoolDtype : ColKind → Bool
  | .kBool => true
  | _ => false

/-- Embeds `pd.api.types.is_datetime64_any_dtype`. -/
def isDatetimeDtype : ColKind → Bool
  | .kDatetime => true
  | _ => false

/-- Embeds `isinstance(dtype, pd.CategoricalDtype)`. -/
def isCategoricalDtype : ColKind → Bool
  | .kCategorical => true
  | _ => false

/-- The per-key branch chain of `JsonConverter.register_generic_schema`:
a column literally named `timestamp` gets the nested time object; otherwise
the dtype chain runs, falling back to string. -/
def jsonInferProp (key : Str) (dtype : ColKind) : JsonProp :=
  if key = tsKey then .jtime 0 0 999999999
  else if isIntegerDtype dtype then .jint
  else if isFloatDtype dtype then .jnum
  else if isBoolDtype dtype then .jbool
  else if isDatetimeDtype dtype then .jstr
  else if isCategoricalDtype dtype then .jstr
  else .jstr

/-- Embeds the `properties` dict built by
`JsonConverter.register_generic_schema` (converter/json.py): it starts
empty and gains one property per non-excluded column — there is no
unconditional timestamp property on this path. -/
def jsonGenericSchemaProps (columns : List (Str × ColKind))
    (excludeKeys : List Str) : List (Str × JsonProp) :=
  (columns.filter (fun p => ! excludeKeys.contains p.1)).foldl
    (fun props p => dictSet props p.1 (jsonInferProp p.1 p.2)) []

/-- Embeds the `schema_keys` return value of
`JsonConverter.register_generic_schema`: the non-excluded column names. -/
def jsonGenericSchemaKeys (columns : List (Str × ColKind))
    (excludeKeys : List Str) : List Str :=
  (columns.filter (fun p => ! excludeKeys.contains p.1)).map (fun p => p.1)

/-- Decimal digits of a natural number, with explicit fuel. -/
def natDigits : Nat → Nat → Str
  | 0, _ => []
  | fuel + 1, n =>
      if n < 10 then [Nat.digitChar n]
      else natDigits fuel (n / 10) ++ [Nat.digitChar (n % 10)]

/-- Decimal rendering of a natural number (Python `str(n)` for `n ≥ 0`). -/
def natToStr (n : Nat) : Str := natDigits (n + 1) n

/-- Embeds `sanitize_ros2_field_name` (converter/ros2.py): `re.sub` replaces
every character outside `[a-zA-Z0-9_]` with an underscore, then the result
is lowercased. -/
def sanitizeRos2FieldName (key : Str) : Str :=
  (key.map (fun c => if c.isAlphanum || c = '_' then c else '_')).map Char.toLower

/-- The first non-null sample drawn from an object column: a Python string,
or a numpy array with the given element dtype. -/
inductive ObjSample where
  | sampleStr
  | sampleArray (elem : ColKind)
  deriving DecidableEq

/-- Embeds `numpy_to_ros2_type` when no sample is consulted (`bits` stands
for the source's `itemsize * 8`); the final branch is the permissive string
fallback. -/
def numpyToRos2TypeBase : ColKind → Str
  | .kBool => "bool".toList
  | .kInt bits => "int".toList ++ natToStr bits
  | .kUInt bits => "uint".toList ++ natToStr bits
  | .kFloat bits => "float".toList ++ natToStr bits
  | .kObject => "string[]".toList
  | _ => "string".toList

/-- Embeds `numpy_to_ros2_type` (converter/ros2.py): object columns are
disambiguated by the sample — a string sample yields `string`, an array
sample yields the element type suffixed with `[]`, no sample yields
`string[]`. -/
def numpyToRos2Type (dtype : ColKind) (sample : Option ObjSample) : Str :=
  match dtype, sample with
  | .kObject, some .sampleStr => "string".toList
  | .kObject, some (.sampleArray e) => numpyToRos2TypeBase e ++ "[]".toList
  | d, _ => numpyToRos2TypeBase d

/-- Embeds the `(type, field name)` pair list built by
`Ros2Converter.register_generic_schema`: it starts with the unconditional
`builtin_interfaces/Time timestamp` pair, then adds one pair per
non-excluded column with its sanitized field name. -/
def ros2GenericSchemaPairs (columns : List (Str × ColKind × Option ObjSample))
    (excludeKeys : List Str) : List (Str × Str) :=
  ("builtin_interfaces/Time".toList, tsKey) ::
    (columns.filter (fun c => ! excludeKeys.contains c.1)).map
      (fun c => (numpyToRos2Type c.2.1 c.2.2, sanitizeRos2FieldName c.1))

/-- Embeds the `schema_keys` dict built by
`Ros2Converter.register_generic_schema`: sanitized field name to original
column name, in column order. -/
def ros2GenericSchemaKeys (columns : List (Str × ColKind × Option ObjSample))
    (excludeKeys : List Str) : List (Str × Str) :=
  (columns.filter (fun c => ! excludeKeys.contains c.1)).foldl
    (fun sk c => dictSet sk (sanitizeRos2FieldName c.1) c.1) []

/-- The message of the `ValueError` raised by
`Ros2Converter.write_messages_from_iterator`. -/
def noTimestampMsg : Str := "No timestamp found in message".toList

/-- Reads an integer field out of a nested dict value, as the Python
subscript chain `d[k]` does: a missing key raises `KeyError`, a non-dict or
non-integer shape raises `TypeError`. -/
def getIntKey (d : Val) (k : Str) : Except Str Int :=
  match d with
  | .vdict entries =>
      match dictGet entries k with
      | some (.vint n) => .ok n
      | some _ => .error "TypeError".toList
      | none => .error "KeyError".toList
  | _ => .error "TypeError".toList

/-- Embeds the `buf_time_ns` computation of
`Ros2Converter.write_messages_from_iterator`: a `timestamp` key yields
`sec * 1_000_000_000 + nsec`; otherwise a `header` dict holding a `stamp`
yields `sec * 1_000_000_000 + nanosec`; otherwise the fatal
`No timestamp found in message` error. -/
def bufTimeNs (msg : Msg) : Except Str Int :=
  match dictGet msg tsKey with
  | some tv => do
      let s ← getIntKey tv secKey
      let ns ← getIntKey tv nsecKey
      .ok (s * 1000000000 + ns)
  | none =>
      match dictGet msg headerKey with
      | some (.vdict hentries) =>
          match dictGet hentries stampKey with
          | some sv => do
              let s ← getIntKey sv secKey
              let ns ← getIntKey sv nanosecKey
              .ok (s * 1000000000 + ns)
          | none => .error noTimestampMsg
      | some _ => .error "TypeError".toList
      | none => .error noTimestampMsg

/-- Modelled from the spec: the ConvertedRow producer that renders
`log_time_template` is not present under `src/` — the field is declared in
loader/models.py ("Jinja2 template to use to map columns to log time ns.
If none, the log time will be taken from timestamp or header.stamp") and
its consumer `JsonConverter.write_messages_from_iterator` reads the
precomputed `ConvertedRow.log_time_ns`, but the code computing that value
is missing.  Following the spec's precedence, the rendered template integer
(`templateNs`, when the definition has a `log_time_template`) wins;
otherwise the in-source `bufTimeNs` fallback applies. -/
def resolveLogTimeNs (templateNs : Option Int) (msg : Msg) : Except Str Int :=
  match templateNs with
  | some t => .ok t
  | none => bufTimeNs msg

/-- One message written through the ros2 writer
(`self._writer.write_message(...)`). -/
structure Ros2Written where
  topic : Str
  schemaId : Option Nat
  msg : Msg
  logTime : Int
  pubTime : Int
  sequence : Nat

/-- Embeds the message loop of `Ros2Converter.write_messages_from_iterator`:
items are consumed in iterator order; each message's `buf_time_ns` is
resolved and the message written with it as both log and publish time and
with its original index as the sequence number; the first message without a
resolvable time raises, so the returned list holds exactly the messages
written before the failure and the raised error message. -/
def ros2WriteMessages (topic : Str) (schemaId : Option Nat)
    (items : List (Nat × Msg)) : List Ros2Written × Option Str :=
  match items with
  | [] => ([], none)
  | (idx, msg) :: rest =>
      match bufTimeNs msg with
      | .error e => ([], some e)
      | .ok t =>
          ({ topic := topic, schemaId := schemaId, msg := msg, logTime := t,
             pubTime := t, sequence := idx } ::
             (ros2WriteMessages topic schemaId rest).1,
           (ros2WriteMessages topic schemaId rest).2)

/-- Embeds the `convert_row_iterator` inner generator of
`McapConverter._process_tabular_mappings`: `df.iterrows()` in the table's
native row order (the default integer index), each row through
`convert_row`. -/
def convertRowIterator {Row : Type} (convertRow : Row → Msg)
    (rows : List Row) : List (Nat × Msg) :=
  rows.enum.map (fun p => (p.1, convertRow p.2))

/-- The mcap writer's schema table: `register_schema` (and the ros2 writer's
`register_msgdef`) always appends a fresh record and hands back a fresh
handle — the writer itself never deduplicates by name. -/
structure WriterState where
  nextId : Nat
  schemaRecords : List (Nat × Str)

/-- One writer-level schema registration. -/
def registerSchemaRecord (w : WriterState) (name : Str) : Nat × WriterState :=
  (w.nextId,
   { nextId := w.nextId + 1, schemaRecords := w.schemaRecords ++ [(w.nextId, name)] })

/-- The registry state the orchestrator threads: the writer plus
`McapConverter._schema_ids`. -/
structure ConvState where
  writer : WriterState
  schemaIds : List (Str × Nat)

/-- Embeds the schema-resolution step of
`McapConverter._process_tabular_mappings` for one converter function:
with `schema_name is None` the generic registration always runs (no cache
lookup happens first) and the fresh id is then stored under the derived
generic name; with a present `schema_name` the `_schema_ids` cache is
consulted first and only a miss registers. -/
def resolveTabularSchema (cfgSchemaName : Option Str) (genericName : Str)
    (st : ConvState) : Nat × ConvState :=
  match cfgSchemaName with
  | none =>
      let (sid, w) := registerSchemaRecord st.writer genericName
      (sid, { writer := w, schemaIds := dictSet st.schemaIds genericName sid })
  | some name =>
      match dictGet st.schemaIds name with
      | some sid => (sid, st)
      | none =>
          let (sid, w) := registerSchemaRecord st.writer name
          (sid, { writer := w, schemaIds := dictSet st.schemaIds name sid })

/-- Embeds the get-or-register schema step of
`McapConverter._process_other_mappings`. -/
def resolveOtherSchema (name : Str) (st : ConvState) : Nat × ConvState :=
  match dictGet st.schemaIds name with
  | some sid => (sid, st)
  | none =>
      let (sid, w) := registerSchemaRecord st.writer name
      (sid, { writer := w, schemaIds := dictSet st.schemaIds name sid })

/-- Embeds `ConvertedRow` (converter/common.py). -/
structure ConvertedRow where
  data : Msg
  logTimeNs : Int
  publishTimeNs : Int

/-- A channel registered through the plain mcap writer. -/
structure JsonChannel where
  topic : Str
  schemaId : Nat
  messageEncoding : Str

/-- One message written through the plain mcap writer. -/
structure JsonWritten where
  channelSchemaId : Nat
  data : Msg
  logTime : Int
  pubTime : Int

/-- Embeds the base64 rewrite inside
`JsonConverter.write_messages_from_iterator`: a raw-bytes field literally
named `data` is replaced by its base64 text before serialization. -/
def b64Step (msg : Msg) : Msg :=
  match dictGet msg dataKey with
  | some (.vbytes bs) => dictSet msg dataKey (.vstr (b64Encode bs))
  | _ => msg

/-- Embeds `JsonConverter.write_messages_from_iterator`: the channel is
registered with `schema_id if schema_id is not None else 0` — an absent
schema handle is replaced by the placeholder id 0, not rejected — and then
every ConvertedRow is written with its precomputed times. -/
def jsonWriteMessages (topic : Str) (schemaId : Option Nat)
    (items : List (Nat × ConvertedRow)) : JsonChannel × List JsonWritten :=
  let channel : JsonChannel :=
    { topic := topic,
      schemaId := match schemaId with | some i => i | none => 0,
      messageEncoding := "json".toList }
  (channel,
   items.map (fun p =>
     { channelSchemaId := channel.schemaId, data := b64Step p.2.data,
       logTime := p.2.logTimeNs, pubTime := p.2.publishTimeNs }))

/-- Embeds `SUPPORT_WRITER_FORMATS` (mcap_converter.py). -/
def supportedWriterFormats : List Str := ["json".toList, "ros2".toList]

/-- The outcome of the format gate at the top of `McapConverter.convert`:
whether `open(output_path, "wb")` was reached, and the raised error. -/
structure ConvertOutcome where
  outputOpened : Bool
  error : Option Str

/-- Embeds the start of `McapConverter.convert`: an unsupported
`writer_format` raises `ValueError` before the output file is opened, so a
failed run neither creates nor truncates the output file. -/
def convertFormatGate (writerFormat : Str) : ConvertOutcome :=
  if writerFormat ∈ supportedWriterFormats then
    { outputOpened := true, error := none }
  else
    { outputOpened := false,
      error := some ("Writer format ".toList ++ writerFormat ++
                     " is not supported".toList) }

/-- Embeds the value normalization inside
`generate_generic_converter_func` (converter/functions.py): numpy arrays
become lists (`tolist`), numpy scalars unwrap to Python scalars (`tolist` or
`item`), pandas timestamps become ISO-8601 text (`to_pydatetime().isoformat()`);
then lists are kept as they are and any other value passes the `pd.notna`
test — `None` and NaN fail it and are stored as null. -/
def normalizeCell (v : Val) : Val :=
  match v with
  | .vlist l => .vlist l
  | .vdatetime iso => .vstr iso
  | .vnan => .vnone
  | .vnone => .vnone
  | v => v

/-- Embeds the inner `convert_row` of `generate_generic_converter_func`:
the custom converter function's message (`converterMsg`, the rendered
template, or the empty dict when there is none) is built first, then the
column-copy loop assigns every schema key from the row — overwriting any
key the template pre-populated.  `schemaKeys` holds the
(message key, row key) pairs: identical pairs for the json backend's key
list, sanitized-to-original pairs for the ros2 backend's dict. -/
def genericConvertRow (schemaKeys : List (Str × Str)) (converterMsg : Msg)
    (row : Str → Val) : Msg :=
  schemaKeys.foldl
    (fun message p => dictSet message p.1 (normalizeCell (row p.2))) converterMsg

/-- Embeds the key/value extraction of `McapConverter._process_metadata`:
every line is stripped and split on the configured separator; splits with
fewer than two parts contribute nothing, and the first two parts of every
other split become the stripped key/value pair, in line order. -/
def metadataEntries (separator : Str) (lines : List Str) : List (Str × Str) :=
  ((lines.map (fun line => pySplit separator (pyStrip line))).filter
      (fun kv => 2 ≤ kv.length)).map
    (fun kv => (pyStrip (kv.headD []), pyStrip (kv.getD 1 [])))

/-- Embeds the `metadata_dict` comprehension of
`McapConverter._process_metadata`: the entries folded into a dict, a later
duplicate key overwriting an earlier one. -/
def metadataDict (separator : Str) (lines : List Str) : List (Str × Str) :=
  (metadataEntries separator lines).foldl (fun d p => dictSet d p.1 p.2) []

/-- Exclude pattern of the C1 counterexample: the literal text `sub/`. -/
def c1ExcludeReg : Reg := Reg.ofLits "sub/".toList

/-- Mapping of the C1 counterexample: its glob matches every file of the
input tree, its exclude pattern is `sub/`. -/
def c1Mapping : FileMapping :=
  { globMatch := fun _ => true, excludeFilePattern := some c1ExcludeReg }

/-- File of the C1 counterexample, as a root-relative path. -/
def c1File : Str := "sub/a.csv".toList

/-- Derived generic schema name used by the C4 counterexample. -/
def c4GenericName : Str := "table.sensorscsv.Data".toList

/-- Fresh registry state: a writer with no schemas and an empty
`_schema_ids` cache. -/
def c4State0 : ConvState :=
  { writer := { nextId := 1, schemaRecords := [] }, schemaIds := [] }

/-- The converted row of the C5 counterexample. -/
def c5Row : ConvertedRow :=
  { data := [("x".toList, Val.vint 1)], logTimeNs := 5, publishTimeNs := 5 }

/-- A message with a well-formed `timestamp`, for the C6 witness. -/
def c6Good : Msg :=
  [(tsKey, Val.vdict [(secKey, Val.vint 0), (nsecKey, Val.vint 1)])]

/-- First row of the C7 witness. -/
def c7RowA : Msg :=
  [(tsKey, Val.vdict [(secKey, Val.vint 3), (nsecKey, Val.vint 4)])]

/-- Second row of the C7 witness. -/
def c7RowB : Msg :=
  [(headerKey, Val.vdict [(stampKey,
      Val.vdict [(secKey, Val.vint 5), (nanosecKey, Val.vint 6)])])]

/-- Key used by the C9 witness. -/
def c9Key : Str := "speed".toList

theorem dictGet_dictSet_self {α : Type} (d : List (Str × α)) (k : Str) (v : α) :
    dictGet (dictSet d k v) k = some v := by
  induction d with
  | nil => simp [dictSet, dictGet]
  | cons hd tl ih =>
      obtain ⟨k2, v2⟩ := hd
      by_cases h : k2 = k <;> simp [dictSet, dictGet, h, ih]

theorem dictGet_dictSet_ne {α : Type} (d : List (Str × α)) (k k2 : Str) (v : α)
    (h : k ≠ k2) : dictGet (dictSet d k v) k2 = dictGet d k2 := by
  induction d with
  | nil => simp [dictSet, dictGet, h]
  | cons hd tl ih =>
      obtain ⟨k3, v3⟩ := hd
      by_cases h3 : k3 = k
      · subst h3
        simp [dictSet, dictGet, h]
      · simp [dictSet, dictGet, h3, ih]

/-- C3: log-time precedence.  A rendered `log_time_template` value always
wins, over any message content; without one, a `timestamp` entry yields
`sec * 1e9 + nsec` — in particular `sec = 1, nsec = 500000000` yields
`1500000000` — and otherwise a `header.stamp` pair is used the same way. -/
theorem c3_log_time_precedence :
    (∀ (t : Int) (msg : Msg), resolveLogTimeNs (some t) msg = Except.ok t) ∧
    (∀ (s ns : Int) (rest : Msg),
      resolveLogTimeNs none
          ((tsKey, Val.vdict [(secKey, Val.vint s), (nsecKey, Val.vint ns)]) :: rest) =
        Except.ok (s * 1000000000 + ns)) ∧
    resolveLogTimeNs none
        [(tsKey, Val.vdict [(secKey, Val.vint 1), (nsecKey, Val.vint 500000000)])] =
      Except.ok 1500000000 ∧
    (∀ (s ns : Int),
      resolveLogTimeNs none
          [(headerKey, Val.vdict [(stampKey,
              Val.vdict [(secKey, Val.vint s), (nanosecKey, Val.vint ns)])])] =
        Except.ok (s * 1000000000 + ns)) := by
  refine ⟨fun t msg => rfl, fun s ns rest => rfl, ?_, fun s ns => rfl⟩
  show Except.ok ((1 : Int) * 1000000000 + 500000000) = Except.ok 1500000000
  norm_num

/-- C4: counterexample.  Resolving the same generic schema name twice from a
fresh state re-invokes the registration: the second call returns handle 2
instead of the cached handle 1, and the writer's schema table ends up with
two records for the one logical name. -/
theorem c4_generic_reregistration_counterexample :
    (resolveTabularSchema none c4GenericName c4State0).1 = 1 ∧
    (resolveTabularSchema none c4GenericName
        (resolveTabularSchema none c4GenericName c4State0).2).1 = 2 ∧
    (resolveTabularSchema none c4GenericName
        (resolveTabularSchema none c4GenericName c4State0).2).2.writer.schemaRecords.length = 2 :=
  ⟨rfl, rfl, rfl⟩

/-- C4 (amended): schema registration is idempotent for named schemas — in
the tabular path and in the other-mappings path a second resolution of the
same name returns the cached handle and leaves the registry untouched — but
generic (absent `schema_name`) registration always re-invokes the generator,
growing the writer's schema table by one record each time. -/
theorem c4_schema_registration_idempotence :
    (∀ (name gname gname2 : Str) (st : ConvState),
      resolveTabularSchema (some name) gname2
          (resolveTabularSchema (some name) gname st).2 =
        ((resolveTabularSchema (some name) gname st).1,
         (resolveTabularSchema (some name) gname st).2)) ∧
    (∀ (name : Str) (st : ConvState),
      resolveOtherSchema name (resolveOtherSchema name st).2 =
        ((resolveOtherSchema name st).1, (resolveOtherSchema name st).2)) ∧
    (∀ (gname : Str) (st : ConvState),
      (resolveTabularSchema none gname st).2.writer.schemaRecords.length =
        st.writer.schemaRecords.length + 1) := by
  refine ⟨fun name gname gname2 st => ?_, fun name st => ?_, fun gname st => ?_⟩
  · cases h : dictGet st.schemaIds name with
    | some sid => simp [resolveTabularSchema, h]
    | none => simp [resolveTabularSchema, h, registerSchemaRecord, dictGet_dictSet_self]
  · cases h : dictGet st.schemaIds name with
    | some sid => simp [resolveOtherSchema, h]
    | none => simp [resolveOtherSchema, h, registerSchemaRecord, dictGet_dictSet_self]
  · simp [resolveTabularSchema, registerSchemaRecord]

/-- C5: counterexample.  Writing through the JSON backend with an absent
schema handle does not fail: the channel is registered under the
placeholder schema id 0 and the message is written under it. -/
theorem c5_absent_schema_not_rejected_counterexample :
    (jsonWriteMessages "topicA".toList none [(0, c5Row)]).1.schemaId = 0 ∧
    (jsonWriteMessages "topicA".toList none [(0, c5Row)]).2 =
      [{ channelSchemaId := 0, data := c5Row.data, logTime := 5, pubTime := 5 }] :=
  ⟨rfl, rfl⟩

/-- C5 (amended): neither backend checks the schema handle at channel-open
time.  The JSON backend substitutes the placeholder id 0 for an absent
handle and writes every message; the ros2 backend passes whatever handle it
was given through to each written message unchecked. -/
theorem c5_absent_schema_placeholder (topic : Str) (schemaId : Option Nat)
    (items : List (Nat × ConvertedRow)) (ritems : List (Nat × Msg)) :
    (jsonWriteMessages topic schemaId items).1.schemaId =
      (match schemaId with | some i => i | none => 0) ∧
    (jsonWriteMessages topic schemaId items).2.length = items.length ∧
    (∀ w ∈ (ros2WriteMessages topic schemaId ritems).1, w.schemaId = schemaId) := by
  refine ⟨rfl, by simp [jsonWriteMessages], ?_⟩
  induction ritems with
  | nil => simp [ros2WriteMessages]
  | cons hd tl ih =>
      obtain ⟨idx, msg⟩ := hd
      cases h : bufTimeNs msg with
      | error e => simp [ros2WriteMessages, h]
      | ok t =>
          intro w hw
          simp only [ros2WriteMessages, h, List.mem_cons] at hw
          rcases hw with hw | hw
          · simp [hw]
          · exact ih w hw

/-- Witness for C5 at concrete inputs: an absent schema handle on both
backends. -/
theorem c5_absent_schema_placeholder_witness :
    (jsonWriteMessages "topicA".toList none [(0, c5Row)]).1.schemaId = 0 ∧
    (jsonWriteMessages "topicA".toList none [(0, c5Row)]).2.length = 1 ∧
    (∀ w ∈ (ros2WriteMessages "topicA".toList none
        [(0, [(tsKey, Val.vdict [(secKey, Val.vint 0),
                (nsecKey, Val.vint 1)])])]).1, w.schemaId = none) :=
  c5_absent_schema_placeholder "topicA".toList none [(0, c5Row)]
    [(0, [(tsKey, Val.vdict [(secKey, Val.vint 0), (nsecKey, Val.vint 1)])])]

/-- C8: an unsupported `writer_format` (anything other than the two
supported encodings json and ros2) makes `McapConverter.convert` raise the
unsupported-format error before the output file is opened, so the failed
run neither creates nor truncates the output file. -/
theorem c8_unsupported_format_gate (fmt : Str)
    (h : fmt ∉ supportedWriterFormats) :
    (convertFormatGate fmt).outputOpened = false ∧
    (convertFormatGate fmt).error =
      some ("Writer format ".toList ++ fmt ++ " is not supported".toList) := by
  simp [convertFormatGate, h]

/-- Witness for C8 at the concrete format `protobuf` (accepted by the
configuration model but not supported by `convert`). -/
theorem c8_unsupported_format_gate_witness :
    (convertFormatGate "protobuf".toList).outputOpened = false ∧
    (convertFormatGate "protobuf".toList).error =
      some ("Writer format ".toList ++ "protobuf".toList ++
            " is not supported".toList) :=
  c8_unsupported_format_gate "protobuf".toList (by decide)

/-- C1: counterexample.  The file `sub/a.csv` is glob-matched and its
root-relative path does match the exclude pattern `sub/` under `re.match`,
yet `_process_file_mappings` keeps it — the exclude test runs against the
basename `a.csv` — so channels and messages are produced for it. -/
theorem c1_exclude_root_relative_counterexample :
    c1Mapping.globMatch c1File = true ∧
    reMatch c1ExcludeReg c1File = true ∧
    processFileMappings [c1Mapping] [c1File] = [(c1Mapping, c1File)] :=
  ⟨rfl, by decide, rfl⟩

/-- C1 (amended): a glob-matched file enters the mapping tuples — and hence
gets channels, messages, attachments, or metadata — exactly when the
exclude pattern does not `re.match` its basename (the final path
component); the file's full root-relative path is never what the exclude
pattern is tested against. -/
theorem c1_exclude_matches_basename (mappings : List FileMapping)
    (files : List Str) (m : FileMapping) (f : Str) :
    (m, f) ∈ processFileMappings mappings files ↔
      m ∈ mappings ∧ f ∈ files ∧ m.globMatch f = true ∧
        excludeSkips m f = false := by
  simp only [processFileMappings, List.mem_flatMap, List.mem_map,
    List.mem_filter, Bool.not_eq_true', Prod.mk.injEq]
  constructor
  · rintro ⟨m2, hm2, f2, ⟨⟨hfiles, hglob⟩, hex⟩, hm, hf⟩
    subst hm
    subst hf
    exact ⟨hm2, hfiles, hglob, hex⟩
  · rintro ⟨hm, hf, hglob, hex⟩
    exact ⟨m, hm, f, ⟨⟨hf, hglob⟩, hex⟩, rfl, rfl⟩

/-- Witness for C1 at a concrete instance: `sub/a.csv` is kept because its
basename does not match the exclude pattern. -/
theorem c1_exclude_matches_basename_witness :
    (c1Mapping, c1File) ∈ processFileMappings [c1Mapping] [c1File] :=
  (c1_exclude_matches_basename [c1Mapping] [c1File] c1Mapping c1File).mpr
    ⟨List.mem_singleton.mpr rfl, List.mem_singleton.mpr rfl, rfl, by decide⟩

/-- C2: counterexample.  For the JSON backend, the generically inferred
schema of a table with the single column `lat` (float) contains only the
`lat` property: there is no `timestamp` field at all. -/
theorem c2_json_generic_schema_counterexample :
    jsonGenericSchemaProps [("lat".toList, ColKind.kFloat 64)] [] =
      [("lat".toList, JsonProp.jnum)] ∧
    dictGet (jsonGenericSchemaProps [("lat".toList, ColKind.kFloat 64)] [])
        tsKey = none :=
  ⟨rfl, rfl⟩

theorem dictGet_jsonProps_tsKey (l : List (Str × ColKind))
    (d : List (Str × JsonProp)) :
    dictGet (l.foldl (fun props p => dictSet props p.1 (jsonInferProp p.1 p.2)) d)
        tsKey =
      if tsKey ∈ l.map Prod.fst then some (JsonProp.jtime 0 0 999999999)
      else dictGet d tsKey := by
  induction l generalizing d with
  | nil => simp
  | cons p tl ih =>
      rw [List.foldl_cons, ih, List.map_cons]
      by_cases hk : p.1 = tsKey
      · have hcond : tsKey ∈ p.1 :: tl.map Prod.fst := by
          rw [hk]
          exact List.mem_cons_self _ _
        rw [if_pos hcond]
        by_cases hmem : tsKey ∈ tl.map Prod.fst
        · rw [if_pos hmem]
        · rw [if_neg hmem, hk, dictGet_dictSet_self]
          have hjt : jsonInferProp tsKey p.2 = JsonProp.jtime 0 0 999999999 := by
            rw [jsonInferProp, if_pos rfl]
          rw [hjt]
      · have hne : tsKey ≠ p.1 := fun hcontra => hk hcontra.symm
        by_cases hmem : tsKey ∈ tl.map Prod.fst
        · rw [if_pos hmem, if_pos (List.mem_cons_of_mem _ hmem)]
        · have hcond : tsKey ∉ p.1 :: tl.map Prod.fst := by
            intro hc
            rcases List.mem_cons.mp hc with h1 | h1
            · exact hne h1
            · exact hmem h1
          rw [if_neg hmem, if_neg hcond, dictGet_dictSet_ne _ _ _ _ hk]

/-- C2 (amended): the ros2 backend's generically inferred message
definition always begins with the native time field
`builtin_interfaces/Time timestamp`; the JSON backend's generically
inferred schema carries the nested `timestamp` property — `sec` a
non-negative integer, `nsec` an integer within 0 and 999999999 — exactly
when a non-excluded input column is named `timestamp`; with no such
column, the JSON schema has no timestamp field. -/
theorem c2_generic_schema_time_field (columns : List (Str × ColKind))
    (cols2 : List (Str × ColKind × Option ObjSample))
    (excludeKeys : List Str) :
    (ros2GenericSchemaPairs cols2 excludeKeys).head? =
      some ("builtin_interfaces/Time".toList, tsKey) ∧
    dictGet (jsonGenericSchemaProps columns excludeKeys) tsKey =
      (if tsKey ∈ jsonGenericSchemaKeys columns excludeKeys
       then some (JsonProp.jtime 0 0 999999999) else none) := by
  refine ⟨rfl, ?_⟩
  rw [jsonGenericSchemaProps, dictGet_jsonProps_tsKey]
  rfl

/-- C6: a converted message that carries neither a `timestamp` entry nor a
`header` entry makes `Ros2Converter.write_messages_from_iterator` raise the
`No timestamp found in message` error; exactly the messages preceding it
were written, and nothing after it is — no default timestamp is
substituted. -/
theorem c6_missing_timestamp_fatal (topic : Str) (schemaId : Option Nat)
    (pre : List (Nat × Msg)) (idx : Nat) (bad : Msg) (rest : List (Nat × Msg))
    (hpre : ∀ p ∈ pre, ∃ t, bufTimeNs p.2 = Except.ok t)
    (hbadTs : dictGet bad tsKey = none)
    (hbadHeader : dictGet bad headerKey = none) :
    bufTimeNs bad = Except.error noTimestampMsg ∧
    (ros2WriteMessages topic schemaId (pre ++ (idx, bad) :: rest)).2 =
      some noTimestampMsg ∧
    (ros2WriteMessages topic schemaId (pre ++ (idx, bad) :: rest)).1.map
        (fun w => w.msg) = pre.map (fun p => p.2) := by
  have hbad : bufTimeNs bad = Except.error noTimestampMsg := by
    rw [bufTimeNs, hbadTs, hbadHeader]
  refine ⟨hbad, ?_⟩
  induction pre with
  | nil => simp [ros2WriteMessages, hbad]
  | cons p tl ih =>
      obtain ⟨pi, pm⟩ := p
      obtain ⟨t, ht⟩ := hpre (pi, pm) (List.mem_cons_self _ _)
      have ih2 := ih (fun q hq => hpre q (List.mem_cons_of_mem _ hq))
      simp only [List.cons_append, List.append_eq, ros2WriteMessages, ht,
        List.map_cons]
      exact ⟨ih2.1, by rw [ih2.2]⟩

/-- Witness for C6: with a well-timestamped first message, an empty-dict
second message, and a third message after it, the run fails with the
no-timestamp error having written only the first message. -/
theorem c6_missing_timestamp_fatal_witness :
    bufTimeNs ([] : Msg) = Except.error noTimestampMsg ∧
    (ros2WriteMessages "t".toList none
        ([(0, c6Good)] ++ (1, ([] : Msg)) :: [(2, c6Good)])).2 =
      some noTimestampMsg ∧
    (ros2WriteMessages "t".toList none
        ([(0, c6Good)] ++ (1, ([] : Msg)) :: [(2, c6Good)])).1.map
        (fun w => w.msg) = [c6Good] := by
  have h := c6_missing_timestamp_fatal "t".toList none [(0, c6Good)] 1 []
    [(2, c6Good)]
    (by
      intro p hp
      simp only [List.mem_singleton] at hp
      subst hp
      exact ⟨0 * 1000000000 + 1, rfl⟩)
    rfl rfl
  exact ⟨h.1, h.2.1, by rw [h.2.2]; rfl⟩

theorem ros2Write_enumFrom {Row : Type} (topic : Str) (schemaId : Option Nat)
    (convertRow : Row → Msg) (n : Nat) (rows : List Row)
    (h : ∀ r ∈ rows, ∃ t, bufTimeNs (convertRow r) = Except.ok t) :
    (ros2WriteMessages topic schemaId
        ((rows.enumFrom n).map (fun p => (p.1, convertRow p.2)))).2 = none ∧
    (ros2WriteMessages topic schemaId
        ((rows.enumFrom n).map (fun p => (p.1, convertRow p.2)))).1.map
        (fun w => w.msg) = rows.map convertRow ∧
    (ros2WriteMessages topic schemaId
        ((rows.enumFrom n).map (fun p => (p.1, convertRow p.2)))).1.map
        (fun w => w.sequence) = List.range' n rows.length := by
  induction rows generalizing n with
  | nil => simp [ros2WriteMessages]
  | cons r tl ih =>
      obtain ⟨t, ht⟩ := h r (List.mem_cons_self _ _)
      have ih2 := ih (n + 1) (fun q hq => h q (List.mem_cons_of_mem _ hq))
      simp only [List.enumFrom, List.map_cons, ros2WriteMessages, ht,
        List.length_cons, List.range'_succ]
      exact ⟨ih2.1, by rw [ih2.2.1], by rw [ih2.2.2]⟩

/-- C7: with every row yielding a resolvable timestamp, the ros2 write path
consumes `convert_row_iterator` in the table's native order: the output
holds exactly one message per input row, the i-th written message is the
conversion of the i-th row, and the sequence numbers are the original row
positions in order. -/
theorem c7_row_order {Row : Type} (topic : Str) (schemaId : Option Nat)
    (rows : List Row) (convertRow : Row → Msg)
    (h : ∀ r ∈ rows, ∃ t, bufTimeNs (convertRow r) = Except.ok t) :
    (ros2WriteMessages topic schemaId (convertRowIterator convertRow rows)).2 =
      none ∧
    (ros2WriteMessages topic schemaId
        (convertRowIterator convertRow rows)).1.length = rows.length ∧
    (ros2WriteMessages topic schemaId
        (convertRowIterator convertRow rows)).1.map (fun w => w.msg) =
      rows.map convertRow ∧
    (ros2WriteMessages topic schemaId
        (convertRowIterator convertRow rows)).1.map (fun w => w.sequence) =
      List.range rows.length := by
  have aux := ros2Write_enumFrom topic schemaId convertRow 0 rows h
  have hiter : convertRowIterator convertRow rows =
      (rows.enumFrom 0).map (fun p => (p.1, convertRow p.2)) := rfl
  rw [hiter]
  refine ⟨aux.1, ?_, aux.2.1, ?_⟩
  · have := congrArg List.length aux.2.1
    simpa using this
  · rw [aux.2.2, List.range_eq_range']

/-- Witness for C7 on a concrete two-row table (identity conversion). -/
theorem c7_row_order_witness :
    (ros2WriteMessages "t2".toList none
        (convertRowIterator (fun m => m) [c7RowA, c7RowB])).2 = none ∧
    (ros2WriteMessages "t2".toList none
        (convertRowIterator (fun m => m) [c7RowA, c7RowB])).1.map
        (fun w => w.msg) = [c7RowA, c7RowB] ∧
    (ros2WriteMessages "t2".toList none
        (convertRowIterator (fun m => m) [c7RowA, c7RowB])).1.map
        (fun w => w.sequence) = [0, 1] := by
  have h := c7_row_order "t2".toList none [c7RowA, c7RowB] (fun m => m)
    (by
      intro r hr
      rcases List.mem_cons.mp hr with h1 | h1
      · subst h1
        exact ⟨3 * 1000000000 + 4, rfl⟩
      · simp only [List.mem_singleton] at h1
        subst h1
        exact ⟨5 * 1000000000 + 6, rfl⟩)
  refine ⟨h.1, by rw [h.2.2.1]; rfl, by rw [h.2.2.2]; rfl⟩

theorem dictGet_genericConvertRow_not_mem (schemaKeys : List (Str × Str)) :
    ∀ (msg : Msg) (row : Str → Val) (k : Str),
      k ∉ schemaKeys.map Prod.fst →
      dictGet (genericConvertRow schemaKeys msg row) k = dictGet msg k := by
  induction schemaKeys with
  | nil => intro msg row k _; rfl
  | cons p tl ih =>
      intro msg row k h
      simp only [List.map_cons, List.mem_cons] at h
      push_neg at h
      have step : genericConvertRow (p :: tl) msg row =
          genericConvertRow tl (dictSet msg p.1 (normalizeCell (row p.2))) row :=
        rfl
      rw [step, ih _ row k h.2, dictGet_dictSet_ne _ _ _ _ (Ne.symm h.1)]

theorem dictGet_genericConvertRow_mem (schemaKeys : List (Str × Str)) :
    ∀ (msg : Msg) (row : Str → Val) (k rk : Str),
      (schemaKeys.map Prod.fst).Nodup → (k, rk) ∈ schemaKeys →
      dictGet (genericConvertRow schemaKeys msg row) k =
        some (normalizeCell (row rk)) := by
  induction schemaKeys with
  | nil => intro msg row k rk _ hmem; cases hmem
  | cons p tl ih =>
      intro msg row k rk hnodup hmem
      simp only [List.map_cons, List.nodup_cons] at hnodup
      have step : genericConvertRow (p :: tl) msg row =
          genericConvertRow tl (dictSet msg p.1 (normalizeCell (row p.2))) row :=
        rfl
      rcases List.mem_cons.mp hmem with heq | htl
      · have hp1 : p.1 = k := by rw [← heq]
        have hp2 : p.2 = rk := by rw [← heq]
        rw [step, dictGet_genericConvertRow_not_mem tl _ row k
            (by rw [← hp1]; exact hnodup.1), ← hp1, ← hp2, dictGet_dictSet_self]
      · exact ih _ row k rk hnodup.2 htl

/-- C9: in generic conversion mode the column-copy loop runs after the
custom converter function, so for every schema key the final message value
is the normalized table-column value — regardless of what the template
pre-populated under that key — and a NaN or missing scalar is stored as
null. -/
theorem c9_column_copy_overwrites (schemaKeys : List (Str × Str))
    (converterMsg : Msg) (row : Str → Val) (k rk : Str)
    (hnodup : (schemaKeys.map Prod.fst).Nodup) (hmem : (k, rk) ∈ schemaKeys) :
    dictGet (genericConvertRow schemaKeys converterMsg row) k =
      some (normalizeCell (row rk)) ∧
    normalizeCell Val.vnan = Val.vnone ∧
    normalizeCell Val.vnone = Val.vnone :=
  ⟨dictGet_genericConvertRow_mem schemaKeys converterMsg row k rk hnodup hmem,
   rfl, rfl⟩

/-- Witness for C9: the template pre-populates `speed` with a string, the
row holds the integer 42 under `speed`, and the final message carries 42. -/
theorem c9_column_copy_overwrites_witness :
    dictGet
        (genericConvertRow [(c9Key, c9Key)]
          [(c9Key, Val.vstr "from template".toList)] (fun _ => Val.vint 42))
        c9Key = some (normalizeCell (Val.vint 42)) ∧
    normalizeCell Val.vnan = Val.vnone ∧
    normalizeCell Val.vnone = Val.vnone :=
  c9_column_copy_overwrites [(c9Key, c9Key)]
    [(c9Key, Val.vstr "from template".toList)] (fun _ => Val.vint 42)
    c9Key c9Key (by decide) (by decide)

/-- C10: metadata lines that strip-and-split into fewer than two parts on
the configured separator are silently dropped — no error, no entry — and a
line splitting into two or more parts contributes exactly one entry made of
its first two parts, each stripped of surrounding whitespace. -/
theorem c10_metadata_line_split (sep line : Str) (lines : List Str) :
    ((pySplit sep (pyStrip line)).length ≤ 1 →
      metadataEntries sep (line :: lines) = metadataEntries sep lines) ∧
    (∀ (p0 p1 : Str) (rest2 : List Str),
      pySplit sep (pyStrip line) = p0 :: p1 :: rest2 →
      metadataEntries sep (line :: lines) =
        (pyStrip p0, pyStrip p1) :: metadataEntries sep lines) := by
  constructor
  · intro h
    have hno : ¬ (2 ≤ (pySplit sep (pyStrip line)).length) := by omega
    simp [metadataEntries, List.filter_cons, hno]
  · intro p0 p1 rest2 hsplit
    simp [metadataEntries, List.filter_cons, hsplit]

/-- Witness for C10: the separator-free line `ab` yields no entry; the line
`k : v : w` yields the single stripped entry (`k`, `v`). -/
theorem c10_metadata_line_split_witness :
    metadataEntries ":".toList ["ab".toList] = [] ∧
    metadataEntries ":".toList ["k : v : w".toList] =
      [("k".toList, "v".toList)] := by
  constructor
  · exact (c10_metadata_line_split ":".toList "ab".toList []).1 (by decide)
  · have h := (c10_metadata_line_split ":".toList "k : v : w".toList []).2
      "k ".toList " v ".toList [" w".toList] (by decide)
    rw [h]
    decide

end Tabular2Mcap
